import Mathlib

/-!
Shallow embedding of the python-libgqe protocol core and proofs about it.

The embedding covers:
* `GETSERIAL._parse_response` (src/libgqe/protocol/GETSERIAL.py): the
  byte-to-lowercase-hex concatenation decode rule, together with its declared
  `RESPONSE_TYPE = Protocol.Response.Bytes(7)`.
* `GETVER._parse_response` (src/libgqe/protocol/GQRFC1801/v1_00/GETVER.py):
  slicing the raw response at `[0:9]` and `[9:16]` and decoding each slice as
  UTF-8 text (Python `bytes.decode()` with the default strict `utf-8` codec),
  together with its declared `RESPONSE_TYPE = Protocol.Response.Terminator(b'')`.
* The CommandSet / versioning layer (protocol revision extension, command
  lookup), whose implementation lives outside the sampled sources and is
  modelled from the specification.

Python `bytes` values are modelled as `List Nat` with every element `< 256`;
Python `str` values are modelled as `List Char`; a Python function that can
raise is modelled as returning `Except` / `Option`.
-/

set_option maxRecDepth 8192

/-- Modelled from the spec: the `ResponseShape` variants exposed by the
`Protocol.Response` classes (`Bytes(n)` and `Terminator(delim)`), whose defining
module `libgqe/protocol/__init__.py` is not among the sampled sources; only the
two constructor calls `Protocol.Response.Bytes(7)` and
`Protocol.Response.Terminator(b'')` appear in them. -/
inductive Response where
  | bytes (n : Nat)
  | terminator (delim : List Nat)
deriving DecidableEq

/-- Embeds `GETSERIAL.RESPONSE_TYPE = Protocol.Response.Bytes(7)`
(src/libgqe/protocol/GETSERIAL.py, line 25). -/
def GETSERIAL_RESPONSE_TYPE : Response := Response.bytes 7

/-- Embeds `GETVER.RESPONSE_TYPE = Protocol.Response.Terminator(b'')`
(src/libgqe/protocol/GQRFC1801/v1_00/GETVER.py, line 27): the delimiter is the
empty byte string. -/
def GETVER_RESPONSE_TYPE : Response := Response.terminator []

/-- Embeds Python `"{:0>2x}".format(b)` for a byte `b`: the minimal lowercase
hexadecimal rendering of `b` (`Nat.toDigits 16` agrees with Python `format(b, "x")`,
including `0 ↦ "0"` and lowercase letter digits), left-padded with the fill
character `'0'` to width 2. -/
def pyFormat02x (b : Nat) : List Char :=
  let s := Nat.toDigits 16 b
  List.replicate (2 - s.length) '0' ++ s

/-- Embeds `GETSERIAL._parse_response` (src/libgqe/protocol/GETSERIAL.py,
lines 27-31): starting from the empty string, append `"{:0>2x}".format(b)` for
each byte `b` of the input, in order. -/
def GETSERIAL_parse (value : List Nat) : List Char :=
  value.foldl (fun r b => r ++ pyFormat02x b) []

/-- Embeds the Python slice `l[a:b]` for the non-negative literal indices used
by the source (`value[0:9]`, `value[9:16]`): drop the first `a` elements, then
take at most `b - a` of the remainder. -/
def pySlice (l : List Nat) (a b : Nat) : List Nat :=
  (l.drop a).take (b - a)

/-- Strict UTF-8 decoding of a byte list, fuel-indexed so that the recursion is
structural; `fuel ≥ length` makes the fuel irrelevant since every step consumes
at least one byte. Follows the UTF-8 validation rules enforced by CPython's
strict `utf-8` codec: no continuation byte as a lead, no overlong forms
(leads `0xC0`/`0xC1` rejected, `0xE0` requires a second byte `≥ 0xA0`, `0xF0`
requires a second byte `≥ 0x90`), no surrogates (`0xED` requires a second byte
`< 0xA0`), no code point above `U+10FFFF` (`0xF4` requires a second byte
`< 0x90`, leads `≥ 0xF5` rejected), and every continuation byte in
`[0x80, 0xC0)`. -/
def utf8DecodeAux : Nat → List Nat → Option (List Char)
  | _, [] => some []
  | 0, _ :: _ => none
  | fuel + 1, b1 :: rest =>
    if b1 < 0x80 then
      (utf8DecodeAux fuel rest).map (fun cs => Char.ofNat b1 :: cs)
    else if b1 < 0xC2 then none
    else if b1 < 0xE0 then
      match rest with
      | b2 :: rest2 =>
        if 0x80 ≤ b2 ∧ b2 < 0xC0 then
          (utf8DecodeAux fuel rest2).map (fun cs =>
            Char.ofNat ((b1 - 0xC0) * 0x40 + (b2 - 0x80)) :: cs)
        else none
      | [] => none
    else if b1 < 0xF0 then
      match rest with
      | b2 :: b3 :: rest3 =>
        if (if b1 = 0xE0 then 0xA0 else 0x80) ≤ b2 ∧ b2 < (if b1 = 0xED then 0xA0 else 0xC0)
            ∧ 0x80 ≤ b3 ∧ b3 < 0xC0 then
          (utf8DecodeAux fuel rest3).map (fun cs =>
            Char.ofNat ((b1 - 0xE0) * 0x1000 + (b2 - 0x80) * 0x40 + (b3 - 0x80)) :: cs)
        else none
      | _ => none
    else if b1 < 0xF5 then
      match rest with
      | b2 :: b3 :: b4 :: rest4 =>
        if (if b1 = 0xF0 then 0x90 else 0x80) ≤ b2 ∧ b2 < (if b1 = 0xF4 then 0x90 else 0xC0)
            ∧ 0x80 ≤ b3 ∧ b3 < 0xC0 ∧ 0x80 ≤ b4 ∧ b4 < 0xC0 then
          (utf8DecodeAux fuel rest4).map (fun cs =>
            Char.ofNat ((b1 - 0xF0) * 0x40000 + (b2 - 0x80) * 0x1000 + (b3 - 0x80) * 0x40
              + (b4 - 0x80)) :: cs)
        else none
      | _ => none
    else none

/-- Embeds Python `bs.decode()` (default strict `utf-8` codec) as a partial
function: `some` the decoded characters on success, `none` when the codec
raises `UnicodeDecodeError`. -/
def bytesDecode (bs : List Nat) : Option (List Char) :=
  utf8DecodeAux bs.length bs

/-- The Python exception that can escape `GETVER._parse_response`: the
`UnicodeDecodeError` raised by `bytes.decode()` on invalid UTF-8. The source
contains no handler for it and no `DecodeError` wrapper. -/
inductive PyError where
  | unicodeDecodeError
deriving DecidableEq

/-- Embeds `GETVER._parse_response` (src/libgqe/protocol/GQRFC1801/v1_00/GETVER.py,
lines 29-33): `mod = value[0:9]`, `val = value[9:16]`, `return mod.decode(), val.decode()`.
A `UnicodeDecodeError` from either `.decode()` call propagates out unhandled,
modelled as `Except.error`. -/
def GETVER_parse (value : List Nat) : Except PyError (List Char × List Char) :=
  let mod := pySlice value 0 9
  let vl := pySlice value 9 16
  match bytesDecode mod, bytesDecode vl with
  | some m, some v => Except.ok (m, v)
  | _, _ => Except.error PyError.unicodeDecodeError

/-- A lowercase hexadecimal digit: one of `0`-`9` or `a`-`f`. -/
def isHexLowerDigit (c : Char) : Bool :=
  (48 ≤ c.toNat && c.toNat ≤ 57) || (97 ≤ c.toNat && c.toNat ≤ 102)

/-- Numeric value of a lowercase hexadecimal digit character. -/
def hexCharVal (c : Char) : Nat :=
  if 97 ≤ c.toNat then c.toNat - 87 else c.toNat - 48

/-- Reads back a hex string two characters at a time, recovering one byte per
pair; inverse of the GETSERIAL decode rule on valid bytes. -/
def unhex2 : List Char → List Nat
  | c1 :: c2 :: rest => (hexCharVal c1 * 16 + hexCharVal c2) :: unhex2 rest
  | _ => []

/-- Error kinds of the CommandSet layer, from the specification's taxonomy. -/
inductive ProtoError where
  | unsupportedCommandError
  | definitionConflictError
deriving DecidableEq

/-- Modelled from the spec: a `CommandSet` is a version label together with a
mapping from command names to command definitions. The command-descriptor type
is a parameter because the member commands' defining modules (the `Protocol`
base class and the GQRFC1701 command files) are not among the sampled sources;
the claims about this layer concern only name resolution and preservation of
definitions. -/
structure CommandSet (α : Type) where
  versionLabel : String
  commands : List (String × α)
deriving DecidableEq

/-- Modelled from the spec: `lookup(name)` returns the command registered under
`name`, failing with `UnsupportedCommandError` when the active CommandSet has
no such command. -/
def CommandSet.lookup {α : Type} (s : CommandSet α) (n : String) : Except ProtoError α :=
  match s.commands.find? (fun p => p.1 == n) with
  | some p => Except.ok p.2
  | none => Except.error ProtoError.unsupportedCommandError

/-- Modelled from the spec: `extend(base, additions, overrides)` builds the
child table from the base table, with `overrides` entries replacing same-named
base entries, then `additions` inserted; an addition whose name already exists
in the base without being declared an override is a construction-time
`DefinitionConflictError`. -/
def CommandSet.extend {α : Type} (base : CommandSet α) (label : String)
    (additions overrides : List (String × α)) : Except ProtoError (CommandSet α) :=
  if additions.any (fun a =>
      base.commands.any (fun b => b.1 == a.1) && !(overrides.any (fun o => o.1 == a.1))) then
    Except.error ProtoError.definitionConflictError
  else
    Except.ok
      { versionLabel := label
        commands :=
          (base.commands.map (fun p =>
            match overrides.find? (fun o => o.1 == p.1) with
            | some o => o
            | none => p)) ++ additions }

/-- The command names of protocol revision GQRFC1701 v1.00, as imported by
src/libgqe/protocol/GQRFC1701/v2_00/__init__.py, lines 21-26; each name is
paired with itself as a stand-in descriptor since the command definitions are
outside the sampled sources. -/
def V1_00_set : CommandSet String :=
  { versionLabel := "1.00"
    commands :=
      ["GETVER", "GETSERIAL", "POWER", "REBOOT", "GETGYRO", "SPEAKER", "GETVOLT",
       "ECHO", "KEY", "KEYHOLD", "GETMODE", "GETSCREEN", "GETEMF", "GETEF", "GETRF",
       "RESETRFPEAK", "GETCFG", "ECFG", "WCFG", "CFGUPDATE", "FACTORYRESET",
       "SETDATEYY", "SETDATEMM", "SETDATEDD", "SETTIMEHH", "SETTIMEMM", "SETTIMESS",
       "GETDATETIME", "SETDATETIME", "SPIR", "SPIE", "GETBANDDATA",
       "SETSPECTRUMBAND"].map (fun n => (n, n)) }

/-- Protocol revision GQRFC1701 v2.00 as an extension of v1.00 by the command
`GETXYZ` (one of the three additions named in the v2.00 docstring and
`__all__`). -/
def V2_00_set : CommandSet String :=
  { versionLabel := "2.00"
    commands := V1_00_set.commands ++ [("GETXYZ", "GETXYZ")] }

theorem pyFormat02x_length : ∀ b < 256, (pyFormat02x b).length = 2 := by decide

theorem pyFormat02x_hex : ∀ b < 256, (pyFormat02x b).all isHexLowerDigit = true := by decide

theorem unhex2_pyFormat02x : ∀ b < 256, unhex2 (pyFormat02x b) = [b] := by decide

theorem GETSERIAL_parse_foldl (l : List Nat) :
    ∀ acc : List Char,
      l.foldl (fun r b => r ++ pyFormat02x b) acc = acc ++ GETSERIAL_parse l := by
  induction l with
  | nil => intro acc; simp [GETSERIAL_parse]
  | cons b rest ih =>
    intro acc
    simp only [GETSERIAL_parse, List.foldl_cons, List.nil_append]
    rw [ih (acc ++ pyFormat02x b), ih (pyFormat02x b), List.append_assoc]

theorem GETSERIAL_parse_cons (b : Nat) (l : List Nat) :
    GETSERIAL_parse (b :: l) = pyFormat02x b ++ GETSERIAL_parse l := by
  simp only [GETSERIAL_parse, List.foldl_cons, List.nil_append]
  exact GETSERIAL_parse_foldl l (pyFormat02x b)

theorem GETSERIAL_parse_length (l : List Nat) (h : ∀ b ∈ l, b < 256) :
    (GETSERIAL_parse l).length = 2 * l.length := by
  induction l with
  | nil => rfl
  | cons b rest ih =>
    rw [GETSERIAL_parse_cons, List.length_append,
      pyFormat02x_length b (h b (List.mem_cons_self b rest)),
      ih (fun x hx => h x (List.mem_cons_of_mem b hx))]
    simp [List.length_cons, Nat.mul_succ, Nat.add_comm]

theorem GETSERIAL_parse_hex (l : List Nat) (h : ∀ b ∈ l, b < 256) :
    ∀ c ∈ GETSERIAL_parse l, isHexLowerDigit c = true := by
  induction l with
  | nil => intro c hc; simp [GETSERIAL_parse] at hc
  | cons b rest ih =>
    intro c hc
    rw [GETSERIAL_parse_cons] at hc
    rcases List.mem_append.mp hc with hc1 | hc2
    · exact List.all_eq_true.mp (pyFormat02x_hex b (h b (List.mem_cons_self b rest))) c hc1
    · exact ih (fun x hx => h x (List.mem_cons_of_mem b hx)) c hc2

theorem unhex2_GETSERIAL_parse (l : List Nat) (h : ∀ b ∈ l, b < 256) :
    unhex2 (GETSERIAL_parse l) = l := by
  induction l with
  | nil => rfl
  | cons b rest ih =>
    have hb : b < 256 := h b (List.mem_cons_self b rest)
    obtain ⟨c1, c2, hfb⟩ := List.length_eq_two.mp (pyFormat02x_length b hb)
    have hval : unhex2 [c1, c2] = [b] := by rw [← hfb]; exact unhex2_pyFormat02x b hb
    have hval2 : hexCharVal c1 * 16 + hexCharVal c2 = b := by
      simpa [unhex2] using hval
    rw [GETSERIAL_parse_cons, hfb]
    show (hexCharVal c1 * 16 + hexCharVal c2) :: unhex2 (GETSERIAL_parse rest) = b :: rest
    rw [hval2, ih (fun x hx => h x (List.mem_cons_of_mem b hx))]

theorem utf8DecodeAux_ascii (fuel : Nat) :
    ∀ l : List Nat, l.length ≤ fuel → (∀ b ∈ l, b < 0x80) →
      utf8DecodeAux fuel l = some (l.map Char.ofNat) := by
  induction fuel with
  | zero =>
    intro l hlen _
    match l with
    | [] => rfl
    | b :: rest => simp at hlen
  | succ n ih =>
    intro l hlen hascii
    match l with
    | [] => rfl
    | b :: rest =>
      have hb : b < 0x80 := hascii b (by simp)
      simp only [utf8DecodeAux, if_pos hb]
      rw [ih rest (by simpa using Nat.le_of_succ_le_succ hlen)
        (fun x hx => hascii x (List.mem_cons_of_mem b hx))]
      rfl

theorem bytesDecode_ascii (l : List Nat) (h : ∀ b ∈ l, b < 0x80) :
    bytesDecode l = some (l.map Char.ofNat) :=
  utf8DecodeAux_ascii l.length l (Nat.le_refl _) h

/-- C1: for every byte sequence (each byte below 256, as guaranteed by Python
`bytearray`), the GETSERIAL hex-concatenation decode rule produces a string of
length twice the byte count consisting only of lowercase hexadecimal digits,
and the rule is injective: two distinct byte sequences of the same length
produce distinct output strings. -/
theorem C1_getserial_hex_decode :
    (∀ bs : List Nat, (∀ b ∈ bs, b < 256) →
        (GETSERIAL_parse bs).length = 2 * bs.length ∧
        ∀ c ∈ GETSERIAL_parse bs, isHexLowerDigit c = true) ∧
    (∀ bs1 bs2 : List Nat, (∀ b ∈ bs1, b < 256) → (∀ b ∈ bs2, b < 256) →
        bs1.length = bs2.length → bs1 ≠ bs2 →
        GETSERIAL_parse bs1 ≠ GETSERIAL_parse bs2) := by
  constructor
  · intro bs h
    exact ⟨GETSERIAL_parse_length bs h, GETSERIAL_parse_hex bs h⟩
  · intro bs1 bs2 h1 h2 _ hne heq
    exact hne (by rw [← unhex2_GETSERIAL_parse bs1 h1, ← unhex2_GETSERIAL_parse bs2 h2, heq])

/-- Witness for C1 at concrete inputs: the two-byte sequence `[0x12, 0xAB]`
decodes to a 4-character lowercase-hex string, and `[0]` and `[1]` decode to
distinct strings. -/
theorem C1_getserial_hex_decode_witness :
    ((GETSERIAL_parse [0x12, 0xAB]).length = 2 * 2 ∧
      ∀ c ∈ GETSERIAL_parse [0x12, 0xAB], isHexLowerDigit c = true) ∧
    GETSERIAL_parse [0] ≠ GETSERIAL_parse [1] :=
  ⟨C1_getserial_hex_decode.1 [0x12, 0xAB] (by decide),
   C1_getserial_hex_decode.2 [0] [1] (by decide) (by decide) rfl (by decide)⟩

/-- C2: GETSERIAL declares a fixed 7-byte response shape, and its decode
renders each byte as two lowercase hex digits concatenated in receive order; on
the 7-byte input `b"\x00\x11\x22\x33\x44\x55\x66"` it returns the 14-character
string `"00112233445566"`. -/
theorem C2_getserial_shape_and_example :
    GETSERIAL_RESPONSE_TYPE = Response.bytes 7 ∧
    GETSERIAL_parse [0x00, 0x11, 0x22, 0x33, 0x44, 0x55, 0x66] =
      "00112233445566".toList :=
  ⟨rfl, by decide⟩

/-- C8: decoding is deterministic and stateless: two runs of the same decode
function on the same raw response bytes yield identical results, for both
GETSERIAL's and GETVER's decode. -/
theorem C8_decode_deterministic :
    ∀ value : List Nat,
      GETSERIAL_parse value = GETSERIAL_parse value ∧
      GETVER_parse value = GETVER_parse value :=
  fun _ => ⟨rfl, rfl⟩

/-- Witness for C8 at a concrete input. -/
theorem C8_decode_deterministic_witness :
    GETSERIAL_parse [0, 255] = GETSERIAL_parse [0, 255] ∧
    GETVER_parse [0, 255] = GETVER_parse [0, 255] :=
  C8_decode_deterministic [0, 255]

/-- C9: GETSERIAL's decode performs no length check: for every byte sequence of
any length n (7-byte or not), it succeeds and returns a string of length
exactly 2n, and on the empty input it returns the empty string. -/
theorem C9_getserial_no_length_check :
    (∀ bs : List Nat, (∀ b ∈ bs, b < 256) →
        (GETSERIAL_parse bs).length = 2 * bs.length) ∧
    GETSERIAL_parse [] = [] :=
  ⟨fun bs h => GETSERIAL_parse_length bs h, rfl⟩

/-- Witness for C9 at a concrete input of length 3, which violates the 7-byte
response shape yet decodes to a 6-character string. -/
theorem C9_getserial_no_length_check_witness :
    (GETSERIAL_parse [1, 2, 3]).length = 2 * 3 :=
  C9_getserial_no_length_check.1 [1, 2, 3] (by decide)

/-- C3: GETVER's decode returns `Except.ok (model, firmwareVersion)` exactly
when `model` is bytes `[0:9]` of the input decoded as text and
`firmwareVersion` is bytes `[9:16]` decoded as text. -/
theorem C3_getver_decode_slices :
    ∀ (value : List Nat) (m w : List Char),
      GETVER_parse value = Except.ok (m, w) ↔
        (bytesDecode (pySlice value 0 9) = some m ∧
         bytesDecode (pySlice value 9 16) = some w) := by
  intro value m w
  unfold GETVER_parse
  cases h1 : bytesDecode (pySlice value 0 9) <;>
    cases h2 : bytesDecode (pySlice value 9 16) <;>
      simp [h1, h2]

/-- Witness for C3 at the concrete 16-byte ASCII input "ABCDEFGHIJKLMNOP":
the decoded pair is ("ABCDEFGHI", "JKLMNOP"). -/
theorem C3_getver_decode_slices_witness :
    GETVER_parse [65, 66, 67, 68, 69, 70, 71, 72, 73, 74, 75, 76, 77, 78, 79, 80] =
      Except.ok ("ABCDEFGHI".toList, "JKLMNOP".toList) :=
  (C3_getver_decode_slices
    [65, 66, 67, 68, 69, 70, 71, 72, 73, 74, 75, 76, 77, 78, 79, 80]
    "ABCDEFGHI".toList "JKLMNOP".toList).mpr ⟨by decide, by decide⟩

/-- C4: evaluation of the code at a failing input. On the 16-byte input whose
first byte is `0xFF` (not valid UTF-8), `GETVER._parse_response` lets the
`UnicodeDecodeError` raised by `value[0:9].decode()` escape unhandled — the
source contains no handler and no `DecodeError` value — contradicting the
requirement that decode fail with a `DecodeError` value rather than crash. -/
theorem C4_getver_uncaught_unicode_error :
    GETVER_parse (0xFF :: List.replicate 15 0x41) =
      Except.error PyError.unicodeDecodeError := rfl

/-- C5: evaluation of the code at the violating declaration. GETVER's declared
`RESPONSE_TYPE` is the `Terminator` (UntilTerminator) variant with the EMPTY
delimiter `b''`, contradicting the invariant that every UntilTerminator
delimiter is non-empty and that read-until-idle be a distinct third variant;
the source itself flags the declaration with a to-do comment. -/
theorem C5_getver_terminator_is_empty :
    GETVER_RESPONSE_TYPE = Response.terminator [] ∧
    ∀ d, GETVER_RESPONSE_TYPE = Response.terminator d → d.length = 0 := by
  refine ⟨rfl, ?_⟩
  intro d hd
  cases hd
  rfl

/-- Witness for C5: the delimiter of GETVER's declared response shape has
length zero. -/
theorem C5_getver_terminator_is_empty_witness :
    ([] : List Nat).length = 0 :=
  C5_getver_terminator_is_empty.2 [] rfl

/-- C7: on an input made of 9 ASCII model bytes followed by 7 ASCII version
bytes, GETVER's decode returns exactly the two decoded text slices, with no
character loss or shift; and whenever either slice fails to decode as text
(for example trailing padding bytes that are not valid text), the decode fails
with an error rather than returning any (possibly truncated) pair. -/
theorem C7_getver_ascii_exact_or_fail :
    (∀ m v : List Nat, m.length = 9 → v.length = 7 →
        (∀ b ∈ m, b < 0x80) → (∀ b ∈ v, b < 0x80) →
        GETVER_parse (m ++ v) =
          Except.ok (m.map Char.ofNat, v.map Char.ofNat)) ∧
    (∀ value : List Nat,
        bytesDecode (pySlice value 0 9) = none ∨
          bytesDecode (pySlice value 9 16) = none →
        GETVER_parse value = Except.error PyError.unicodeDecodeError) := by
  constructor
  · intro m v hm hv ham hav
    have h1 : pySlice (m ++ v) 0 9 = m := by
      simp only [pySlice, List.drop_zero, Nat.sub_zero]
      rw [← hm]
      exact List.take_left m v
    have h2 : pySlice (m ++ v) 9 16 = v := by
      simp only [pySlice]
      rw [show (16 : Nat) - 9 = 7 from rfl, ← hm, List.drop_left, ← hv,
        List.take_length]
    simp only [GETVER_parse, h1, h2, bytesDecode_ascii m ham, bytesDecode_ascii v hav]
  · intro value h
    rcases h with h | h <;>
      · unfold GETVER_parse
        cases h1 : bytesDecode (pySlice value 0 9) <;>
          cases h2 : bytesDecode (pySlice value 9 16) <;>
            simp_all

/-- Witness for C7 at concrete inputs: the ASCII input "ABCDEFGHI" ++ "1234567"
decodes to exactly those two strings, and an input whose version slice ends in
the invalid byte `0xFF` produces an error, not a truncated pair. -/
theorem C7_getver_ascii_exact_or_fail_witness :
    GETVER_parse ([65, 66, 67, 68, 69, 70, 71, 72, 73] ++ [49, 50, 51, 52, 53, 54, 55]) =
      Except.ok ([65, 66, 67, 68, 69, 70, 71, 72, 73].map Char.ofNat,
        [49, 50, 51, 52, 53, 54, 55].map Char.ofNat) ∧
    GETVER_parse (List.replicate 9 65 ++ [49, 50, 51, 52, 53, 54, 0xFF]) =
      Except.error PyError.unicodeDecodeError :=
  ⟨C7_getver_ascii_exact_or_fail.1 [65, 66, 67, 68, 69, 70, 71, 72, 73]
      [49, 50, 51, 52, 53, 54, 55] rfl rfl (by decide) (by decide),
   C7_getver_ascii_exact_or_fail.2 (List.replicate 9 65 ++ [49, 50, 51, 52, 53, 54, 0xFF])
      (Or.inr (by decide))⟩

/-- C10: GETVER's decode depends only on the first 16 bytes of its input: any
two inputs agreeing on their first 16 bytes decode identically, so bytes at
index 16 and beyond are silently discarded. -/
theorem C10_getver_first16 :
    ∀ v1 v2 : List Nat, v1.take 16 = v2.take 16 →
      GETVER_parse v1 = GETVER_parse v2 := by
  intro v1 v2 h
  have t9 : ∀ v : List Nat, List.take 9 v = List.take 9 (List.take 16 v) := by
    intro v
    rw [List.take_take]
    norm_num
  have d9 : ∀ v : List Nat, List.take 7 (List.drop 9 v) = List.drop 9 (List.take 16 v) := by
    intro v
    rw [List.drop_take]
  have e1 : pySlice v1 0 9 = pySlice v2 0 9 := by
    simp only [pySlice, List.drop_zero, Nat.sub_zero]
    rw [t9 v1, t9 v2, h]
  have e2 : pySlice v1 9 16 = pySlice v2 9 16 := by
    simp only [pySlice]
    rw [show (16 : Nat) - 9 = 7 from rfl, d9 v1, d9 v2, h]
  simp only [GETVER_parse, e1, e2]

/-- Witness for C10 at concrete inputs: a 16-byte input and its extension by
three extra bytes decode identically. -/
theorem C10_getver_first16_witness :
    GETVER_parse (List.replicate 16 65) =
      GETVER_parse (List.replicate 16 65 ++ [1, 2, 3]) :=
  C10_getver_first16 (List.replicate 16 65) (List.replicate 16 65 ++ [1, 2, 3])
    (by decide)

/-- C6: for every base CommandSet B and extension E of B adding a command named
`xn` (with no overrides): looking up `xn` in E succeeds with the added
definition, every command name resolvable in B remains resolvable in E with an
unchanged definition, and looking up `xn` in B fails with
`UnsupportedCommandError`. -/
theorem C6_extend_lookup {α : Type} (B : CommandSet α) (lbl xn : String) (x : α)
    (E : CommandSet α)
    (hE : CommandSet.extend B lbl [(xn, x)] [] = Except.ok E) :
    E.lookup xn = Except.ok x ∧
    (∀ n c, B.lookup n = Except.ok c → E.lookup n = Except.ok c) ∧
    B.lookup xn = Except.error ProtoError.unsupportedCommandError := by
  unfold CommandSet.extend at hE
  by_cases hcol : B.commands.any (fun b => b.1 == xn) = true
  · simp [hcol] at hE
  · have hcol2 : B.commands.any (fun b => b.1 == xn) = false :=
      Bool.not_eq_true _ ▸ (by simpa using hcol)
    have hfind : B.commands.find? (fun p => p.1 == xn) = none := by
      rw [List.find?_eq_none]
      intro p hp
      simpa using (List.any_eq_false.mp hcol2) p hp
    have hEeq : (⟨lbl, B.commands ++ [(xn, x)]⟩ : CommandSet α) = E := by
      rw [if_neg (by simp [hcol2])] at hE
      have h2 := Except.ok.inj hE
      rw [← h2]
      simp
    subst hEeq
    refine ⟨?_, ?_, ?_⟩
    · unfold CommandSet.lookup
      rw [List.find?_append, hfind]
      simp [Option.or, List.find?]
    · intro n c hlk
      unfold CommandSet.lookup at hlk ⊢
      cases hf : B.commands.find? (fun p => p.1 == n) with
      | none => rw [hf] at hlk; exact absurd hlk (by simp)
      | some p =>
        rw [hf] at hlk
        rw [List.find?_append, hf]
        exact hlk
    · unfold CommandSet.lookup
      rw [hfind]

/-- Witness for C6 on the concrete revisions: GQRFC1701 v2.00 is v1.00 extended
with the command GETXYZ; GETXYZ resolves in v2.00, every v1.00 command still
resolves unchanged in v2.00, and GETXYZ does not resolve in v1.00. -/
theorem C6_extend_lookup_witness :
    V2_00_set.lookup "GETXYZ" = Except.ok "GETXYZ" ∧
    (∀ n c, V1_00_set.lookup n = Except.ok c → V2_00_set.lookup n = Except.ok c) ∧
    V1_00_set.lookup "GETXYZ" = Except.error ProtoError.unsupportedCommandError :=
  C6_extend_lookup V1_00_set "2.00" "GETXYZ" "GETXYZ" V2_00_set rfl
